import Mathlib

/-!
Verification development for the MediSync AI scheduling dashboard.

The repository ships a React frontend whose "AI" scheduling functions are
fetch stubs delegating to an unspecified backend; the design document
specifies the missing scheduling core (interval model, conflict detector,
suggestion engine).  This file embeds, on one side, the concrete frontend
helpers that do exist in the repository (preference validation, calendar
rendering predicates, the drag-and-drop reschedule handler) and, on the
other side, a model of the missing scheduling core written from the design
document, and proves the stated properties of both.

Time-of-day values are minutes since midnight (`Nat`), except where the
frontend manipulates `HH:mm` strings, which are embedded as strings with
the exact parsing and formatting arithmetic of the source.
-/

namespace Spec

/-- Modelled from the spec: a half-open interval on a single calendar day in
minutes since midnight, used for appointments, working hours, breaks and
candidate slots.  The field `stop` renders the spec's `end`, which is a
reserved word in Lean. -/
structure TimeWindow where
  start : Nat
  stop : Nat
deriving Repr, DecidableEq

/-- Modelled from the spec: `overlaps(a, b)` is true iff
`a.start < b.end && b.start < a.end`; touching intervals do not overlap. -/
def overlaps (a b : TimeWindow) : Bool :=
  decide (a.start < b.stop) && decide (b.start < a.stop)

/-- Modelled from the spec: signed distance between the earlier interval's
end and the later interval's start. -/
def gap (a b : TimeWindow) : Int :=
  (b.start : Int) - (a.stop : Int)

/-- Modelled from the spec: appointment priority. -/
inductive Priority where
  | emergency
  | urgent
  | normal
deriving Repr, DecidableEq

/-- Modelled from the spec: appointment lifecycle status; only `scheduled`
records participate in conflict and availability computation. -/
inductive Status where
  | scheduled
  | completed
  | cancelled
  | noShow
deriving Repr, DecidableEq

/-- Modelled from the spec: an `AppointmentRecord` of the missing scheduling
core.  Ids, patient, doctor and calendar day are opaque and rendered as
numbers; the day is an absolute day index. -/
structure AppointmentRecord where
  id : Nat
  patientId : Nat
  doctorId : Nat
  date : Nat
  window : TimeWindow
  priority : Priority
  status : Status
deriving Repr, DecidableEq

/-- Modelled from the spec: `SchedulingConstraints` of the missing core.
Counts and durations are integers so that the non-positive inputs the spec
rejects are representable. -/
structure SchedulingConstraints where
  maxPatientsPerDay : Int
  defaultDurationMinutes : Int
  emergencyDurationMinutes : Int
  breakWindows : List TimeWindow
  bufferMinutes : Nat
  minNoticeHours : Nat
  maxAdvanceDays : Nat
deriving Repr, DecidableEq

/-- Modelled from the spec: an upper bound of the sane date range; a record
dated past it is malformed input. -/
def saneDateLimit : Nat := 73000

/-- Modelled from the spec: a malformed appointment record has
`start ≥ end` or a date outside the sane range; such a record is rejected
per-record, never aborting the batch. -/
def appointmentMalformed (a : AppointmentRecord) : Bool :=
  decide (a.window.stop ≤ a.window.start) || decide (saneDateLimit < a.date)

/-- Modelled from the spec: the kind of a detected conflict. -/
inductive ConflictKind where
  | overlap
  | doubleBooking
  | gapTooSmall
  | overbook
deriving Repr, DecidableEq

/-- Modelled from the spec: conflict severity. -/
inductive Severity where
  | high
  | medium
  | low
deriving Repr, DecidableEq

/-- Modelled from the spec: rank used to order records by severity
descending. -/
def severityRank : Severity → Nat
  | .high => 2
  | .medium => 1
  | .low => 0

/-- Modelled from the spec: deterministic description text per kind. -/
def kindDescription : ConflictKind → String
  | .overlap => "Appointments overlap in time"
  | .doubleBooking => "Two appointments share an identical time window"
  | .gapTooSmall => "Gap between consecutive appointments is below the buffer"
  | .overbook => "Scheduled appointments exceed the daily patient limit"

/-- Modelled from the spec: deterministic suggested-resolution text per
kind. -/
def kindResolution : ConflictKind → String
  | .overlap => "Move the later appointment to the next available slot of equal duration"
  | .doubleBooking => "Cancel or reschedule one of the duplicated appointments"
  | .gapTooSmall => "Shift the later appointment to restore the required buffer"
  | .overbook => "Move excess appointments to the next day with capacity"

/-- Modelled from the spec: a derived `ConflictRecord`. -/
structure ConflictRecord where
  kind : ConflictKind
  involvedAppointmentIds : List Nat
  severity : Severity
  description : String
  suggestedResolution : Option String
deriving Repr, DecidableEq

/-- Modelled from the spec: an `InvalidAppointment` per-record error tagged
with the offending appointment id. -/
structure InvalidAppointment where
  id : Nat
deriving Repr, DecidableEq

/-- Modelled from the spec: what one detector call returns — the conflicts
found among the valid records together with the per-record errors collected
during the scan. -/
structure DetectOutcome where
  conflicts : List ConflictRecord
  invalid : List InvalidAppointment
deriving Repr, DecidableEq

/-- Modelled from the spec: build the conflict record of a given kind over
the listed appointment ids. -/
def mkConflict (k : ConflictKind) (ids : List Nat) (sev : Severity) : ConflictRecord :=
  { kind := k
    involvedAppointmentIds := ids
    severity := sev
    description := kindDescription k
    suggestedResolution := some (kindResolution k) }

/-- Modelled from the spec: the chronological group order — by start time,
ties broken by appointment id ascending, for determinism. -/
def startIdOrder (a b : AppointmentRecord) : Prop :=
  a.window.start < b.window.start ∨
    (a.window.start = b.window.start ∧ a.id ≤ b.id)

instance : DecidableRel startIdOrder := by
  intro a b
  unfold startIdOrder
  infer_instance

/-- Modelled from the spec: sweep a chronologically sorted group into its
maximal clusters of transitively overlapping appointments. -/
def clustersAux : List AppointmentRecord → List AppointmentRecord → Nat →
    List (List AppointmentRecord)
  | [], current, _ => [current.reverse]
  | x :: xs, current, maxStop =>
    if x.window.start < maxStop then
      clustersAux xs (x :: current) (max maxStop x.window.stop)
    else
      current.reverse :: clustersAux xs [x] x.window.stop

/-- Modelled from the spec: the maximal overlap clusters of a sorted
group. -/
def clusters : List AppointmentRecord → List (List AppointmentRecord)
  | [] => []
  | x :: xs => clustersAux xs [x] x.window.stop

/-- Modelled from the spec: one `overlap` record of severity high per
cluster of two or more mutually or transitively overlapping
appointments. -/
def overlapConflicts (g : List AppointmentRecord) : List ConflictRecord :=
  (clusters g).filterMap (fun cl =>
    if 2 ≤ cl.length then
      some (mkConflict .overlap (cl.map (fun a => a.id)) .high)
    else none)

/-- Modelled from the spec: all ordered pairs of a list, first component
earlier in the list. -/
def listPairs : List AppointmentRecord → List (AppointmentRecord × AppointmentRecord)
  | [] => []
  | x :: xs => xs.map (fun y => (x, y)) ++ listPairs xs

/-- Modelled from the spec: a `double-booking` record of severity high for
every pair of appointments sharing an identical time window, reported in
addition to the overlap record. -/
def doubleBookingConflicts (g : List AppointmentRecord) : List ConflictRecord :=
  (listPairs g).filterMap (fun p =>
    if p.1.window = p.2.window then
      some (mkConflict .doubleBooking [p.1.id, p.2.id] .high)
    else none)

/-- Modelled from the spec: a `gap-too-small` record of severity medium for
every chronologically adjacent, non-overlapping pair whose gap is positive
but below the buffer. -/
def gapConflicts (g : List AppointmentRecord) (bufferMinutes : Nat) : List ConflictRecord :=
  (g.zip g.tail).filterMap (fun p =>
    if overlaps p.1.window p.2.window then none
    else if 0 < gap p.1.window p.2.window ∧ gap p.1.window p.2.window < (bufferMinutes : Int) then
      some (mkConflict .gapTooSmall [p.1.id, p.2.id] .medium)
    else none)

/-- Modelled from the spec: an `overbook` record when a day's scheduled
count exceeds `maxPatientsPerDay`; severity medium when at most twenty
percent over, high otherwise. -/
def overbookConflicts (g : List AppointmentRecord) (maxPatientsPerDay : Int) :
    List ConflictRecord :=
  if maxPatientsPerDay < (g.length : Int) then
    [mkConflict .overbook (g.map (fun a => a.id))
      (if (g.length : Int) * 100 ≤ maxPatientsPerDay * 120 then .medium else .high)]
  else []

/-- Modelled from the spec: order conflict records by severity descending,
then by first involved appointment id ascending. -/
def conflictOrder (x y : ConflictRecord) : Prop :=
  severityRank y.severity < severityRank x.severity ∨
    (severityRank x.severity = severityRank y.severity ∧
      x.involvedAppointmentIds.headD 0 ≤ y.involvedAppointmentIds.headD 0)

instance : DecidableRel conflictOrder := by
  intro x y
  unfold conflictOrder
  infer_instance

/-- Modelled from the spec: every conflict detectable within one
doctor-day group, the group being sorted chronologically first. -/
def conflictsOfGroup (g : List AppointmentRecord) (c : SchedulingConstraints) :
    List ConflictRecord :=
  let sorted := g.insertionSort startIdOrder
  (overlapConflicts sorted ++ doubleBookingConflicts sorted ++
    gapConflicts sorted c.bufferMinutes ++
    overbookConflicts sorted c.maxPatientsPerDay).insertionSort conflictOrder

/-- Modelled from the spec: lexicographic order on `(date, doctorId)` group
keys, giving the day-ascending output order. -/
def keyOrder (x y : Nat × Nat) : Prop :=
  x.1 < y.1 ∨ (x.1 = y.1 ∧ x.2 ≤ y.2)

instance : DecidableRel keyOrder := by
  intro x y
  unfold keyOrder
  infer_instance

/-- Modelled from the spec: the distinct `(date, doctorId)` keys of a batch
in ascending order. -/
def groupKeys (l : List AppointmentRecord) : List (Nat × Nat) :=
  ((l.map (fun a => (a.date, a.doctorId))).dedup).insertionSort keyOrder

/-- Modelled from the spec: the members of one doctor-day group. -/
def groupFor (l : List AppointmentRecord) (k : Nat × Nat) : List AppointmentRecord :=
  l.filter (fun a => decide (a.date = k.1) && decide (a.doctorId = k.2))

/-- Modelled from the spec: the scheduled, well-formed records of a batch —
the records that participate in conflict computation. -/
def validScheduled (l : List AppointmentRecord) : List AppointmentRecord :=
  l.filter (fun a => decide (a.status = .scheduled) && !appointmentMalformed a)

/-- Modelled from the spec: the scheduled but malformed records of a batch,
each rejected per-record. -/
def rejectedRecords (l : List AppointmentRecord) : List AppointmentRecord :=
  l.filter (fun a => decide (a.status = .scheduled) && appointmentMalformed a)

/-- Modelled from the spec: `detectConflicts`, the pure conflict-detection
entry point of the missing core.  Malformed records are skipped and
reported as tagged `InvalidAppointment` errors while every remaining valid
appointment is processed; conflicts are emitted per doctor-day group in
deterministic order. -/
def detectConflicts (appointments : List AppointmentRecord)
    (c : SchedulingConstraints) : DetectOutcome :=
  let valid := validScheduled appointments
  { conflicts := (groupKeys valid).flatMap (fun k => conflictsOfGroup (groupFor valid k) c)
    invalid := (rejectedRecords appointments).map (fun a => ⟨a.id⟩) }

/-- Modelled from the spec: one weekday's working-hours entry — an optional
window plus an enabled flag; a disabled or absent day yields zero
availability. -/
structure DayHours where
  window : Option TimeWindow
  enabled : Bool
deriving Repr, DecidableEq

/-- Modelled from the spec: working hours as a mapping from the seven
weekdays to their entries. -/
def WorkingHours : Type := Fin 7 → DayHours

/-- Modelled from the spec: the weekday of an absolute day index. -/
def weekdayOf (day : Nat) : Fin 7 :=
  ⟨day % 7, Nat.mod_lt day (by omega)⟩

/-- Modelled from the spec: an appointment window expanded by the buffer on
both sides, clipped to the day boundaries. -/
def expandByBuffer (w : TimeWindow) (bufferMinutes : Nat) : TimeWindow :=
  ⟨w.start - bufferMinutes, min (w.stop + bufferMinutes) 1440⟩

/-- Modelled from the spec: subtract one blocked window from one free
window, keeping the nonempty remainders. -/
def subtractWindow (free blocked : TimeWindow) : List TimeWindow :=
  (if free.start < min blocked.start free.stop then
    [⟨free.start, min blocked.start free.stop⟩] else []) ++
  (if max blocked.stop free.start < free.stop then
    [⟨max blocked.stop free.start, free.stop⟩] else [])

/-- Modelled from the spec: subtract every blocked window from every free
window. -/
def subtractAll (frees : List TimeWindow) (blocked : List TimeWindow) : List TimeWindow :=
  blocked.foldl (fun fs b => fs.flatMap (fun f => subtractWindow f b)) frees

/-- Modelled from the spec: merge a chronologically sorted list of break
windows into its union of maximal windows; the fuel argument bounds the
recursion and is passed no smaller than the list length. -/
def mergeSortedAux : Nat → List TimeWindow → List TimeWindow
  | _, [] => []
  | 0, l => l
  | _ + 1, [w] => [w]
  | fuel + 1, w1 :: w2 :: rest =>
    if w2.start ≤ w1.stop then
      mergeSortedAux fuel (⟨w1.start, max w1.stop w2.stop⟩ :: rest)
    else
      w1 :: mergeSortedAux fuel (w2 :: rest)

/-- Modelled from the spec: chronological order of windows used before
merging breaks. -/
def windowOrder (a b : TimeWindow) : Prop :=
  a.start < b.start ∨ (a.start = b.start ∧ a.stop ≤ b.stop)

instance : DecidableRel windowOrder := by
  intro a b
  unfold windowOrder
  infer_instance

/-- Modelled from the spec: overlapping break windows are merged into their
union before subtraction. -/
def mergeBreaks (breaks : List TimeWindow) : List TimeWindow :=
  let sorted := breaks.insertionSort windowOrder
  mergeSortedAux sorted.length sorted

/-- Modelled from the spec: split one maximal free window into the
chronological run of slots of exactly the requested duration that fit; the
fuel argument bounds the recursion and is passed no smaller than the window
end. -/
def tileAux : Nat → Nat → Nat → Nat → List TimeWindow
  | 0, _, _, _ => []
  | fuel + 1, s, e, dur =>
    if 0 < dur ∧ s + dur ≤ e then
      ⟨s, s + dur⟩ :: tileAux fuel (s + dur) e dur
    else []

/-- Modelled from the spec: the duration-sized slots of one free window in
chronological order. -/
def tile (w : TimeWindow) (slotDuration : Nat) : List TimeWindow :=
  tileAux w.stop w.start w.stop slotDuration

/-- Modelled from the spec: `availableSlots` — all slots of exactly the
requested duration on the given day, after subtracting the day's scheduled
appointments (expanded by the buffer) and the merged break windows from the
working window; a disabled or absent day yields none. -/
def availableSlots (day : Nat) (workingHours : WorkingHours)
    (existingAppointments : List AppointmentRecord) (breakWindows : List TimeWindow)
    (bufferMinutes slotDuration : Nat) : List TimeWindow :=
  let dh := workingHours (weekdayOf day)
  if dh.enabled then
    match dh.window with
    | none => []
    | some w =>
      let blocked :=
        ((existingAppointments.filter (fun a =>
          decide (a.date = day) && decide (a.status = .scheduled))).map
            (fun a => expandByBuffer a.window bufferMinutes)) ++
        mergeBreaks breakWindows
      (subtractAll [w] blocked).flatMap (fun f => tile f slotDuration)
  else []

/-- Modelled from the spec: the fail-fast constraint validation of the
suggestion entry point — `maxPatientsPerDay` at least one and both
consultation durations positive. -/
def validConstraints (c : SchedulingConstraints) : Bool :=
  decide (1 ≤ c.maxPatientsPerDay) && decide (0 < c.defaultDurationMinutes) &&
    decide (0 < c.emergencyDurationMinutes)

/-- Modelled from the spec: the `ValidationError` rejecting a call made
with malformed constraints before any search begins. -/
inductive ValidationError where
  | invalidConstraints
deriving Repr, DecidableEq

/-- Modelled from the spec: the required consultation duration — the
emergency duration for emergency priority, the default otherwise. -/
def requiredDuration (p : Priority) (c : SchedulingConstraints) : Nat :=
  (match p with
    | .emergency => c.emergencyDurationMinutes
    | _ => c.defaultDurationMinutes).toNat

/-- Modelled from the spec: time-of-day preference of the optional
specialty settings. -/
inductive ExamTimePref where
  | morning
  | afternoon
  | any
deriving Repr, DecidableEq

/-- Modelled from the spec: the priority weight of the proximity term;
emergency far outweighs urgent, which outweighs normal. -/
def priorityWeight : Priority → Int
  | .emergency => 100
  | .urgent => 10
  | .normal => 1

/-- Modelled from the spec: the horizon cap of the proximity term — one
year of minutes; sooner slots get larger proximity scores. -/
def proximityCap : Int := 365 * 1440

/-- Modelled from the spec: the bonus granted when the slot matches the
preferred examination time; morning is before noon. -/
def timeOfDayBonus (pref : Option ExamTimePref) (w : TimeWindow) : Int :=
  match pref with
  | some .morning => if w.start < 720 then 30 else 0
  | some .afternoon => if 720 ≤ w.start then 30 else 0
  | _ => 0

/-- Modelled from the spec: the load-balancing penalty weight per
already-booked appointment of the candidate day. -/
def loadPenaltyWeight : Int := 10

/-- Modelled from the spec: the weighted candidate score — priority-scaled
proximity to now, plus the time-of-day bonus, minus the load-balancing
penalty; exact weights are the tunable choice fixed here. -/
def slotScore (p : Priority) (day : Nat) (w : TimeWindow)
    (pref : Option ExamTimePref) (dayLoad : Nat) : Int :=
  priorityWeight p * (proximityCap - ((day * 1440 + w.start : Nat) : Int)) +
    timeOfDayBonus pref w - loadPenaltyWeight * (dayLoad : Int)

/-- Modelled from the spec: the number of scheduled appointments already on
a day, fed to the load-balancing term. -/
def dayLoad (appointments : List AppointmentRecord) (day : Nat) : Nat :=
  (appointments.filter (fun a =>
    decide (a.date = day) && decide (a.status = .scheduled))).length

/-- Modelled from the spec: a `SuggestionRecord` — the proposed slot with
confidence in the unit interval and human-readable rationale; a non-empty
`conflicts` list marks a proposal the self-check found imperfect. -/
structure SuggestionRecord where
  patientId : Nat
  date : Nat
  window : TimeWindow
  priority : Priority
  confidence : Rat
  reason : String
  conflicts : List String
deriving Repr, DecidableEq

/-- Modelled from the spec: confidence is the score normalized into the
unit interval. -/
def confidenceOfScore (s : Int) : Rat :=
  max 0 (min 1 ((s : Rat) / (priorityWeight .emergency * proximityCap)))

/-- Modelled from the spec: the rationale text composed from the dominant
scoring factor. -/
def reasonFor : Priority → String
  | .emergency => "Emergency case; earliest available slot within working hours"
  | .urgent => "Urgent case; earliest available slot within working hours"
  | .normal => "Earliest available slot within working hours"

/-- Modelled from the spec: the pre-return self-check — warnings when the
proposed slot would overlap an existing scheduled appointment of the same
day. -/
def selfCheckWarnings (appointments : List AppointmentRecord) (day : Nat)
    (w : TimeWindow) : List String :=
  if appointments.any (fun a =>
      decide (a.date = day) && decide (a.status = .scheduled) &&
        overlaps a.window w) then
    ["proposed slot overlaps an existing appointment"]
  else []

/-- Modelled from the spec: assemble one suggestion record for a scored
candidate slot. -/
def mkSuggestion (patientId : Nat) (p : Priority) (day : Nat) (w : TimeWindow)
    (score : Int) (appointments : List AppointmentRecord) : SuggestionRecord :=
  { patientId := patientId
    date := day
    window := w
    priority := p
    confidence := confidenceOfScore score
    reason := reasonFor p
    conflicts := selfCheckWarnings appointments day w }

/-- Modelled from the spec: descending-score order of scored candidates,
ties broken by day then start time ascending for determinism. -/
def scoredOrder (x y : Int × SuggestionRecord) : Prop :=
  y.1 < x.1 ∨ (x.1 = y.1 ∧
    (x.2.date < y.2.date ∨ (x.2.date = y.2.date ∧ x.2.window.start ≤ y.2.window.start)))

instance : DecidableRel scoredOrder := by
  intro x y
  unfold scoredOrder
  infer_instance

/-- Modelled from the spec: `suggestSlots`, the pure suggestion entry point
of the missing core.  Constraints are validated before any slot search;
candidate days of the caller-supplied horizon are searched through
`availableSlots`, candidates are scored and the top-K returned by
descending score; an empty candidate set yields an empty list, not an
error. -/
def suggestSlots (patientId : Nat) (priority : Priority)
    (c : SchedulingConstraints) (workingHours : WorkingHours)
    (appointments : List AppointmentRecord) (horizon : List Nat) (topK : Nat)
    (pref : Option ExamTimePref) : Except ValidationError (List SuggestionRecord) :=
  if validConstraints c then
    let dur := requiredDuration priority c
    let scored := horizon.flatMap (fun day =>
      (availableSlots day workingHours appointments c.breakWindows c.bufferMinutes dur).map
        (fun w =>
          (slotScore priority day w pref (dayLoad appointments day),
            mkSuggestion patientId priority day w
              (slotScore priority day w pref (dayLoad appointments day)) appointments)))
    .ok (((scored.insertionSort scoredOrder).take topK).map Prod.snd)
  else .error .invalidConstraints

/-- Sample constraints matching the defaults of the repository, used by the
concrete witness statements. -/
def sampleConstraints : SchedulingConstraints :=
  { maxPatientsPerDay := 20
    defaultDurationMinutes := 30
    emergencyDurationMinutes := 45
    breakWindows := []
    bufferMinutes := 5
    minNoticeHours := 2
    maxAdvanceDays := 90 }

/-- Sample working hours with every day disabled, used by the concrete
witness statements. -/
def disabledWorkingHours : WorkingHours := fun _ => { window := none, enabled := false }

/-- Sample working hours with a short enabled window every day, used by the
concrete witness statements. -/
def shortWorkingHours : WorkingHours := fun _ => { window := some ⟨540, 600⟩, enabled := true }

/-- Sample appointment occupying the whole short working window, used by
the concrete witness statements. -/
def fullDayAppointment : AppointmentRecord :=
  { id := 1
    patientId := 1
    doctorId := 1
    date := 7
    window := ⟨540, 600⟩
    priority := .normal
    status := .scheduled }

/-- Sample malformed appointment whose window ends before it starts, used
by the concrete witness statements. -/
def malformedAppointment : AppointmentRecord :=
  { id := 9
    patientId := 9
    doctorId := 1
    date := 7
    window := ⟨600, 500⟩
    priority := .normal
    status := .scheduled }

/-- Sample nine-to-nine-thirty appointment, used by the concrete witness
statements. -/
def morningAppointmentA : AppointmentRecord :=
  { id := 1
    patientId := 1
    doctorId := 1
    date := 7
    window := ⟨540, 570⟩
    priority := .normal
    status := .scheduled }

/-- Sample nine-thirty-five-to-ten appointment, used by the concrete
witness statements. -/
def morningAppointmentB : AppointmentRecord :=
  { id := 2
    patientId := 2
    doctorId := 1
    date := 7
    window := ⟨575, 600⟩
    priority := .normal
    status := .scheduled }

end Spec

namespace App

/-- Embeds one day's entry of `DoctorPreferences.workingHours` from
`src/services/aiModel.ts`; `stop` renders the source field `end`. -/
structure WorkDay where
  start : String
  stop : String
  enabled : Bool
deriving Repr, DecidableEq

/-- Embeds the `workingHours` object of `DoctorPreferences` from
`src/services/aiModel.ts`. -/
structure WeeklyWorkingHours where
  monday : WorkDay
  tuesday : WorkDay
  wednesday : WorkDay
  thursday : WorkDay
  friday : WorkDay
  saturday : WorkDay
  sunday : WorkDay
deriving Repr, DecidableEq

/-- Embeds one entry of `constraints.breakTimes`; `stop` renders `end`. -/
structure BreakTime where
  start : String
  stop : String
deriving Repr, DecidableEq

/-- Embeds the `constraints` object of `DoctorPreferences` from
`src/services/aiModel.ts`. -/
structure PrefConstraints where
  maxPatientsPerDay : Int
  defaultConsultationDuration : Int
  emergencyConsultationDuration : Int
  breakTimes : List BreakTime
  bufferBetweenAppointments : Int
  minNoticeForAppointment : Int
  maxAdvanceBooking : Int
deriving Repr, DecidableEq

/-- Embeds the `aiPreferences` object of `DoctorPreferences`. -/
structure AIPreferences where
  prioritizeUrgentCases : Bool
  autoAcceptHighConfidenceSuggestions : Bool
  considerPatientHistory : Bool
  optimizeForMinimalWaitTime : Bool
  allowOverbooking : Bool
  notifyOnConflicts : Bool
deriving Repr, DecidableEq

/-- Embeds `preferredExaminationTime` of `specialtySettings`. -/
inductive ExamTime where
  | morning
  | afternoon
  | any
deriving Repr, DecidableEq

/-- Embeds the optional `specialtySettings` object of `DoctorPreferences`. -/
structure SpecialtySettings where
  followUpInterval : Option Int
  requiresLabResults : Option Bool
  preferredExaminationTime : Option ExamTime
deriving Repr, DecidableEq

/-- Embeds `DoctorPreferences` from `src/services/aiModel.ts`. -/
structure DoctorPreferences where
  doctorId : String
  workingHours : WeeklyWorkingHours
  constraints : PrefConstraints
  aiPreferences : AIPreferences
  specialtySettings : Option SpecialtySettings
deriving Repr, DecidableEq

/-- Embeds `Object.values(preferences.workingHours).some(day => day.enabled)`
from `validateDoctorPreferences`. -/
def hasEnabledWorkingDay (w : WeeklyWorkingHours) : Bool :=
  w.monday.enabled || w.tuesday.enabled || w.wednesday.enabled ||
  w.thursday.enabled || w.friday.enabled || w.saturday.enabled ||
  w.sunday.enabled

/-- Embeds `validateDoctorPreferences` from `src/services/aiModel.ts`;
`!preferences.doctorId` is falsy exactly on the empty string here. -/
def validateDoctorPreferences (p : DoctorPreferences) : Bool :=
  if p.doctorId = "" then false
  else if !hasEnabledWorkingDay p.workingHours then false
  else if p.constraints.maxPatientsPerDay < 1 then false
  else if p.constraints.defaultConsultationDuration < 5 then false
  else true

/-- Embeds `getDefaultDoctorPreferences` from `src/services/aiModel.ts`. -/
def getDefaultDoctorPreferences (doctorId : String) : DoctorPreferences :=
  { doctorId := doctorId
    workingHours :=
      { monday := { start := "09:00", stop := "17:00", enabled := true }
        tuesday := { start := "09:00", stop := "17:00", enabled := true }
        wednesday := { start := "09:00", stop := "17:00", enabled := true }
        thursday := { start := "09:00", stop := "17:00", enabled := true }
        friday := { start := "09:00", stop := "17:00", enabled := true }
        saturday := { start := "09:00", stop := "13:00", enabled := false }
        sunday := { start := "09:00", stop := "13:00", enabled := false } }
    constraints :=
      { maxPatientsPerDay := 20
        defaultConsultationDuration := 30
        emergencyConsultationDuration := 45
        breakTimes := [{ start := "12:00", stop := "13:00" }]
        bufferBetweenAppointments := 5
        minNoticeForAppointment := 2
        maxAdvanceBooking := 90 }
    aiPreferences :=
      { prioritizeUrgentCases := true
        autoAcceptHighConfidenceSuggestions := false
        considerPatientHistory := true
        optimizeForMinimalWaitTime := true
        allowOverbooking := false
        notifyOnConflicts := true }
    specialtySettings := none }

/-- Embeds `Priority` from `src/lib/api.ts`. -/
inductive Priority where
  | emergency
  | urgent
  | normal
deriving Repr, DecidableEq

/-- Embeds `AppointmentStatus` from `src/lib/api.ts`. -/
inductive AppointmentStatus where
  | scheduled
  | completed
  | cancelled
  | noShow
deriving Repr, DecidableEq

/-- Embeds `interface Appointment` from `src/lib/api.ts`: dates are ISO
date strings, times are `HH:mm` strings. -/
structure Appointment where
  id : String
  patientId : String
  patientName : String
  doctorId : String
  date : String
  startTime : String
  endTime : String
  priority : Priority
  status : AppointmentStatus
  type : String
  notes : Option String
  location : Option String
deriving Repr, DecidableEq

/-- Embeds `filterAppointmentsByDate` from `CalendarView.tsx` specialized to
the date string it derives from the `Date` argument. -/
def filterAppointmentsByDate (appointments : List Appointment) (dateStr : String) :
    List Appointment :=
  appointments.filter (fun apt => decide (apt.date = dateStr))

/-- Embeds the slot membership filter of `renderDayView` in
`CalendarView.tsx`: the appointments rendered in the row labelled `time`
are those with `apt.startTime <= time && apt.endTime > time`, compared as
strings exactly as JavaScript compares them. -/
def renderDayViewSlot (appointments : List Appointment) (dateStr time : String) :
    List Appointment :=
  (filterAppointmentsByDate appointments dateStr).filter
    (fun apt => decide (apt.startTime ≤ time) && decide (time < apt.endTime))

/-- Embeds the accumulation a decimal digit list denotes, used to model
JavaScript `parseInt` on digit strings. -/
def digitsToNat : List Char → Nat → Nat
  | [], acc => acc
  | c :: cs, acc => digitsToNat cs (acc * 10 + (c.toNat - '0'.toNat))

/-- Embeds JavaScript `parseInt` as the drop handler meets it: its inputs
there are decimal digit strings, possibly with a leading minus sign. -/
def jsParseInt (s : String) : Int :=
  match s.data with
  | '-' :: cs => -(digitsToNat cs 0 : Int)
  | cs => (digitsToNat cs 0 : Int)

/-- Embeds JavaScript `String.prototype.split` with a single-character
separator, by structural recursion over the characters. -/
def jsSplitAux (sep : Char) : List Char → List Char → List String
  | [], acc => [String.mk acc.reverse]
  | c :: cs, acc =>
    if c = sep then String.mk acc.reverse :: jsSplitAux sep cs []
    else jsSplitAux sep cs (c :: acc)

/-- Embeds `s.split(sep)` for a one-character separator. -/
def jsSplit (s : String) (sep : Char) : List String :=
  jsSplitAux sep s.data []

/-- Embeds `parseInt(parts[0]) * 60 + parseInt(parts[1])` applied to
`s.split(':')` in `handleAppointmentDrop` (`App.tsx`). -/
def parseTimeMin (s : String) : Int :=
  match jsSplit s ':' with
  | [h, m] => jsParseInt h * 60 + jsParseInt m
  | _ => 0

/-- Embeds `.toString().padStart(2, '0')` from `handleAppointmentDrop`. -/
def padStart2 (s : String) : String :=
  if 2 ≤ s.length then s else ("".pushn '0' (2 - s.length)) ++ s

/-- Embeds the template
`Math.floor(newEndMinutes / 60).toString().padStart(2, '0') + ':' + (newEndMinutes % 60).toString().padStart(2, '0')`
from `handleAppointmentDrop`: JavaScript `Math.floor` of the real quotient
is floor division and `%` is truncating remainder. -/
def minutesToHHMM (n : Int) : String :=
  padStart2 (Int.fdiv n 60).repr ++ ":" ++ padStart2 (Int.tmod n 60).repr

/-- Embeds the optimistic-update branch of `handleAppointmentDrop` in
`App.tsx`: look up the dragged appointment, keep the list unchanged if the
id is absent, otherwise recompute its duration from its `HH:mm` fields and
map the list, rewriting every entry carrying the dragged id. -/
def handleAppointmentDrop (appointments : List Appointment)
    (appointmentId newDate newStartTime : String) : List Appointment :=
  match appointments.find? (fun apt => decide (apt.id = appointmentId)) with
  | none => appointments
  | some appointment =>
    let duration : Int :=
      parseTimeMin appointment.endTime - parseTimeMin appointment.startTime
    let newEndMinutes : Int := parseTimeMin newStartTime + duration
    let newEndTime : String := minutesToHHMM newEndMinutes
    appointments.map (fun apt =>
      if apt.id = appointmentId then
        { apt with date := newDate, startTime := newStartTime, endTime := newEndTime }
      else apt)

/-- Sample appointment in the shape the frontend uses, for the concrete
witness statements. -/
def sampleAppointment : Appointment :=
  { id := "a1"
    patientId := "p1"
    patientName := "John Anderson"
    doctorId := "d1"
    date := "2025-10-02"
    startTime := "09:00"
    endTime := "10:00"
    priority := .normal
    status := .scheduled
    type := "Consultation"
    notes := none
    location := none }

end App

/-- C5: half-open overlap semantics — `overlaps` holds iff the intervals
properly intersect, it is symmetric, and touching windows do not
overlap. -/
theorem overlaps_halfOpen_symm_touching (a b : Spec.TimeWindow) :
    (Spec.overlaps a b = true ↔ a.start < b.stop ∧ b.start < a.stop) ∧
    Spec.overlaps a b = Spec.overlaps b a ∧
    (a.stop = b.start → Spec.overlaps a b = false) := by
  refine ⟨?_, ?_, ?_⟩
  · simp [Spec.overlaps]
  · simp [Spec.overlaps, Bool.and_comm]
  · intro h
    simp [Spec.overlaps, h]

/-- C5 witness: the touching windows nine-to-nine-thirty and
nine-thirty-to-ten. -/
theorem overlaps_halfOpen_symm_touching_witness :
    (Spec.overlaps ⟨540, 570⟩ ⟨570, 600⟩ = true ↔ 540 < 600 ∧ 570 < 570) ∧
    Spec.overlaps ⟨540, 570⟩ ⟨570, 600⟩ = Spec.overlaps ⟨570, 600⟩ ⟨540, 570⟩ ∧
    ((570 : Nat) = 570 → Spec.overlaps ⟨540, 570⟩ ⟨570, 600⟩ = false) :=
  overlaps_halfOpen_symm_touching ⟨540, 570⟩ ⟨570, 600⟩

/-- C1: fail-fast validation — a suggestion call whose constraints have a
patient limit below one or a non-positive default or emergency duration is
rejected with a `ValidationError`, so no suggestions are produced. -/
theorem suggestSlots_fail_fast (patientId : Nat) (p : Spec.Priority)
    (c : Spec.SchedulingConstraints) (wh : Spec.WorkingHours)
    (apts : List Spec.AppointmentRecord) (horizon : List Nat) (topK : Nat)
    (pref : Option Spec.ExamTimePref)
    (h : c.maxPatientsPerDay < 1 ∨ c.defaultDurationMinutes ≤ 0 ∨
      c.emergencyDurationMinutes ≤ 0) :
    Spec.suggestSlots patientId p c wh apts horizon topK pref =
      .error .invalidConstraints := by
  have hv : Spec.validConstraints c = false := by
    simp only [Spec.validConstraints, Bool.and_eq_false_iff, decide_eq_false_iff_not, not_le,
      not_lt]
    omega
  simp [Spec.suggestSlots, hv]

/-- C1 witness: a zero patient limit is rejected. -/
theorem suggestSlots_fail_fast_witness :
    ({ Spec.sampleConstraints with maxPatientsPerDay := 0 }.maxPatientsPerDay < 1 ∨
      { Spec.sampleConstraints with
        maxPatientsPerDay := 0 }.defaultDurationMinutes ≤ 0 ∨
      { Spec.sampleConstraints with
        maxPatientsPerDay := 0 }.emergencyDurationMinutes ≤ 0) ∧
    Spec.suggestSlots 1 .normal { Spec.sampleConstraints with maxPatientsPerDay := 0 }
      Spec.disabledWorkingHours [] [] 1 none = .error .invalidConstraints :=
  ⟨Or.inl (by decide),
    suggestSlots_fail_fast 1 .normal _ _ [] [] 1 none (Or.inl (by decide))⟩

/-- C3: determinism of the two pure entry points — identical inputs give
identical outputs for `detectConflicts` and `suggestSlots`, both being
functions of their argument snapshot alone. -/
theorem core_entry_points_deterministic (apts apts' : List Spec.AppointmentRecord)
    (c c' : Spec.SchedulingConstraints) (patientId patientId' : Nat)
    (p p' : Spec.Priority) (wh wh' : Spec.WorkingHours) (horizon horizon' : List Nat)
    (topK topK' : Nat) (pref pref' : Option Spec.ExamTimePref)
    (h1 : apts = apts') (h2 : c = c') (h3 : patientId = patientId') (h4 : p = p')
    (h5 : wh = wh') (h6 : horizon = horizon') (h7 : topK = topK') (h8 : pref = pref') :
    Spec.detectConflicts apts c = Spec.detectConflicts apts' c' ∧
    Spec.suggestSlots patientId p c wh apts horizon topK pref =
      Spec.suggestSlots patientId' p' c' wh' apts' horizon' topK' pref' := by
  subst h1 h2 h3 h4 h5 h6 h7 h8
  exact ⟨rfl, rfl⟩

/-- C3 witness: the two entry points repeated on one concrete snapshot. -/
theorem core_entry_points_deterministic_witness :
    Spec.detectConflicts [] Spec.sampleConstraints =
      Spec.detectConflicts [] Spec.sampleConstraints ∧
    Spec.suggestSlots 1 .normal Spec.sampleConstraints
      Spec.disabledWorkingHours [] [] 1 none =
      Spec.suggestSlots 1 .normal Spec.sampleConstraints
        Spec.disabledWorkingHours [] [] 1 none :=
  core_entry_points_deterministic [] [] _ _ 1 1 .normal .normal _ _ [] [] 1 1 none none
    rfl rfl rfl rfl rfl rfl rfl rfl

/-- C4: empty-result policy — with valid constraints, when no day of the
horizon yields a candidate slot the suggestion call returns an empty list,
not an error. -/
theorem suggestSlots_empty_when_no_slots (patientId : Nat) (p : Spec.Priority)
    (c : Spec.SchedulingConstraints) (wh : Spec.WorkingHours)
    (apts : List Spec.AppointmentRecord) (horizon : List Nat) (topK : Nat)
    (pref : Option Spec.ExamTimePref)
    (hv : Spec.validConstraints c = true)
    (h : ∀ day ∈ horizon,
      Spec.availableSlots day wh apts c.breakWindows c.bufferMinutes
        (Spec.requiredDuration p c) = []) :
    Spec.suggestSlots patientId p c wh apts horizon topK pref = .ok [] := by
  have hs : horizon.flatMap (fun day =>
      (Spec.availableSlots day wh apts c.breakWindows c.bufferMinutes
        (Spec.requiredDuration p c)).map
        (fun w =>
          (Spec.slotScore p day w pref (Spec.dayLoad apts day),
            Spec.mkSuggestion patientId p day w
              (Spec.slotScore p day w pref (Spec.dayLoad apts day)) apts))) = [] := by
    induction horizon with
    | nil => rfl
    | cons d t ih =>
      have hd := h d (by simp)
      have ht : ∀ day ∈ t, Spec.availableSlots day wh apts c.breakWindows c.bufferMinutes
          (Spec.requiredDuration p c) = [] := fun day hday => h day (by simp [hday])
      simp [hd, ih ht]
  simp [Spec.suggestSlots, hv, hs]

/-- C4 witness: a one-day horizon whose single working window is fully
occupied yields the empty suggestion list. -/
theorem suggestSlots_empty_when_no_slots_witness :
    Spec.validConstraints Spec.sampleConstraints = true ∧
    (∀ day ∈ [(7 : Nat)],
      Spec.availableSlots day Spec.shortWorkingHours [Spec.fullDayAppointment]
        Spec.sampleConstraints.breakWindows Spec.sampleConstraints.bufferMinutes
        (Spec.requiredDuration .normal Spec.sampleConstraints) = []) ∧
    Spec.suggestSlots 1 .normal Spec.sampleConstraints Spec.shortWorkingHours
      [Spec.fullDayAppointment] [7] 3 none = .ok [] :=
  ⟨by decide, by decide,
    suggestSlots_empty_when_no_slots 1 .normal _ _ _ [7] 3 none (by decide) (by decide)⟩

/-- C6: monotone scoring — with priority, day, preference bonus and day
load all equal, the slot starting strictly earlier never scores lower. -/
theorem slotScore_monotone_earlier (p : Spec.Priority) (day : Nat)
    (w1 w2 : Spec.TimeWindow) (pref : Option Spec.ExamTimePref) (load : Nat)
    (hstart : w1.start < w2.start)
    (hbonus : Spec.timeOfDayBonus pref w1 = Spec.timeOfDayBonus pref w2) :
    Spec.slotScore p day w2 pref load ≤ Spec.slotScore p day w1 pref load := by
  have hw : 0 < Spec.priorityWeight p := by cases p <;> decide
  unfold Spec.slotScore
  rw [hbonus]
  have hx : (((day * 1440 + w1.start : Nat) : Int)) ≤ ((day * 1440 + w2.start : Nat) : Int) := by
    exact_mod_cast Nat.add_le_add_left hstart.le _
  have hmul : Spec.priorityWeight p * (Spec.proximityCap - ((day * 1440 + w2.start : Nat) : Int)) ≤
      Spec.priorityWeight p * (Spec.proximityCap - ((day * 1440 + w1.start : Nat) : Int)) :=
    mul_le_mul_of_nonneg_left (by omega) hw.le
  omega

/-- C6 witness: on one day with equal bonus and load, the nine-o'clock slot
scores at least the ten-o'clock slot. -/
theorem slotScore_monotone_earlier_witness :
    ((540 : Nat) < 600) ∧
    Spec.timeOfDayBonus none ⟨540, 570⟩ = Spec.timeOfDayBonus none ⟨600, 630⟩ ∧
    Spec.slotScore .normal 3 ⟨600, 630⟩ none 2 ≤ Spec.slotScore .normal 3 ⟨540, 570⟩ none 2 :=
  ⟨by decide, by decide,
    slotScore_monotone_earlier .normal 3 ⟨540, 570⟩ ⟨600, 630⟩ none 2 (by decide) (by decide)⟩

/-- C9: the shipped default preferences validate — for every non-empty
doctor id, `validateDoctorPreferences` accepts
`getDefaultDoctorPreferences`. -/
theorem validateDoctorPreferences_default (doctorId : String) (h : doctorId ≠ "") :
    App.validateDoctorPreferences (App.getDefaultDoctorPreferences doctorId) = true := by
  simp [App.validateDoctorPreferences, App.getDefaultDoctorPreferences,
    App.hasEnabledWorkingDay, h]

/-- C9 witness: the default preferences of one concrete doctor id
validate. -/
theorem validateDoctorPreferences_default_witness :
    ("doctor-1" : String) ≠ "" ∧
    App.validateDoctorPreferences (App.getDefaultDoctorPreferences "doctor-1") = true :=
  ⟨by decide, validateDoctorPreferences_default "doctor-1" (by decide)⟩

/-- C10: the day view renders an appointment in the hourly slot labelled
`t` exactly when `startTime ≤ t` and `t < endTime` under string comparison;
an appointment whose `endTime` equals `t` never appears in slot `t`. -/
theorem renderDayViewSlot_halfOpen (apts : List App.Appointment) (d t : String)
    (a : App.Appointment) :
    (a ∈ App.renderDayViewSlot apts d t ↔
      a ∈ apts ∧ a.date = d ∧ a.startTime ≤ t ∧ t < a.endTime) ∧
    (a.endTime = t → a ∉ App.renderDayViewSlot apts d t) := by
  have hiff : a ∈ App.renderDayViewSlot apts d t ↔
      a ∈ apts ∧ a.date = d ∧ a.startTime ≤ t ∧ t < a.endTime := by
    simp only [App.renderDayViewSlot, App.filterAppointmentsByDate, List.mem_filter,
      Bool.and_eq_true, decide_eq_true_eq]
    tauto
  refine ⟨hiff, fun h hmem => ?_⟩
  have hlt := (hiff.mp hmem).2.2.2
  rw [h] at hlt
  exact lt_irrefl t hlt

/-- C10 witness: one concrete appointment is in its nine-o'clock slot and
absent from the slot matching its end time. -/
theorem renderDayViewSlot_halfOpen_witness :
    (App.sampleAppointment ∈
      App.renderDayViewSlot [App.sampleAppointment] "2025-10-02" "09:00" ↔
      App.sampleAppointment ∈ [App.sampleAppointment] ∧
        App.sampleAppointment.date = "2025-10-02" ∧
        App.sampleAppointment.startTime ≤ "09:00" ∧
        ("09:00" : String) < App.sampleAppointment.endTime) ∧
    (App.sampleAppointment.endTime = "09:00" →
      App.sampleAppointment ∉
        App.renderDayViewSlot [App.sampleAppointment] "2025-10-02" "09:00") :=
  renderDayViewSlot_halfOpen [App.sampleAppointment] "2025-10-02" "09:00"
    App.sampleAppointment

/-- Helper: restricting a batch to its well-formed records does not change
the set of valid scheduled records the detector processes. -/
theorem validScheduled_filter_malformed (l : List Spec.AppointmentRecord) :
    Spec.validScheduled (l.filter fun x => !Spec.appointmentMalformed x) =
      Spec.validScheduled l := by
  induction l with
  | nil => rfl
  | cons x xs ih =>
    simp only [Spec.validScheduled, List.filter_cons] at ih ⊢
    cases h : Spec.appointmentMalformed x <;>
      cases hs : decide (x.status = Spec.Status.scheduled) <;>
        simp [h, hs, ih]

/-- C2: partial-failure policy — a malformed scheduled record of a batch is
reported among the skipped ids as a tagged error, and the conflicts
returned equal those of the batch with malformed records removed, so one
bad record never suppresses the conflicts of the remaining valid
appointments. -/
theorem detectConflicts_partial_failure (apts : List Spec.AppointmentRecord)
    (c : Spec.SchedulingConstraints) (a : Spec.AppointmentRecord)
    (hmem : a ∈ apts) (hsched : a.status = .scheduled)
    (hbad : Spec.appointmentMalformed a = true) :
    (⟨a.id⟩ : Spec.InvalidAppointment) ∈ (Spec.detectConflicts apts c).invalid ∧
    (Spec.detectConflicts apts c).conflicts =
      (Spec.detectConflicts (apts.filter fun x => !Spec.appointmentMalformed x)
        c).conflicts := by
  constructor
  · refine List.mem_map.mpr ⟨a, ?_, rfl⟩
    simp [Spec.rejectedRecords, List.mem_filter, hmem, hsched, hbad]
  · simp only [Spec.detectConflicts]
    rw [validScheduled_filter_malformed]

/-- C2 witness: a batch holding one malformed record still reports it and
returns the conflicts of the remaining valid records. -/
theorem detectConflicts_partial_failure_witness :
    Spec.malformedAppointment ∈ [Spec.fullDayAppointment, Spec.malformedAppointment] ∧
    Spec.malformedAppointment.status = .scheduled ∧
    Spec.appointmentMalformed Spec.malformedAppointment = true ∧
    ((⟨Spec.malformedAppointment.id⟩ : Spec.InvalidAppointment) ∈
      (Spec.detectConflicts [Spec.fullDayAppointment, Spec.malformedAppointment]
        Spec.sampleConstraints).invalid ∧
    (Spec.detectConflicts [Spec.fullDayAppointment, Spec.malformedAppointment]
        Spec.sampleConstraints).conflicts =
      (Spec.detectConflicts
        ([Spec.fullDayAppointment, Spec.malformedAppointment].filter
          fun x => !Spec.appointmentMalformed x) Spec.sampleConstraints).conflicts) :=
  ⟨by decide, by decide, by decide,
    detectConflicts_partial_failure _ Spec.sampleConstraints Spec.malformedAppointment
      (by decide) (by decide) (by decide)⟩

/-- Helper: entries at consecutive positions of a list form a pair of its
adjacency zip. -/
theorem mem_zip_tail_of_get? (l : List Spec.AppointmentRecord) (i : Nat)
    (x y : Spec.AppointmentRecord) (hx : l.get? i = some x)
    (hy : l.get? (i + 1) = some y) : (x, y) ∈ l.zip l.tail := by
  induction l generalizing i with
  | nil => simp at hx
  | cons h t ih =>
    cases i with
    | zero =>
      rw [List.get?_cons_zero] at hx
      rw [List.get?_cons_succ] at hy
      cases t with
      | nil => simp at hy
      | cons u t' =>
        rw [List.get?_cons_zero] at hy
        injection hx with hx
        injection hy with hy
        subst hx hy
        simp only [List.tail_cons, List.zip_cons_cons]
        exact List.mem_cons_self _ _
    | succ j =>
      rw [List.get?_cons_succ] at hx hy
      have hmem := ih j hx hy
      cases t with
      | nil => simp at hx
      | cons u t' =>
        simp only [List.tail_cons, List.zip_cons_cons] at hmem ⊢
        exact List.mem_cons_of_mem _ hmem

/-- Helper: every record of `overlapConflicts` carries the overlap kind. -/
theorem kind_of_mem_overlapConflicts (g : List Spec.AppointmentRecord)
    (r : Spec.ConflictRecord) (h : r ∈ Spec.overlapConflicts g) :
    r.kind = .overlap := by
  rcases List.mem_filterMap.mp h with ⟨cl, _, hf⟩
  revert hf
  split
  · intro hf
    injection hf with hf
    subst hf
    rfl
  · intro hf
    cases hf

/-- Helper: every record of `doubleBookingConflicts` carries the
double-booking kind. -/
theorem kind_of_mem_doubleBookingConflicts (g : List Spec.AppointmentRecord)
    (r : Spec.ConflictRecord) (h : r ∈ Spec.doubleBookingConflicts g) :
    r.kind = .doubleBooking := by
  rcases List.mem_filterMap.mp h with ⟨p, _, hf⟩
  revert hf
  split
  · intro hf
    injection hf with hf
    subst hf
    rfl
  · intro hf
    cases hf

/-- Helper: every record of `overbookConflicts` carries the overbook
kind. -/
theorem kind_of_mem_overbookConflicts (g : List Spec.AppointmentRecord)
    (m : Int) (r : Spec.ConflictRecord) (h : r ∈ Spec.overbookConflicts g m) :
    r.kind = .overbook := by
  unfold Spec.overbookConflicts at h
  revert h
  split
  · intro h
    rw [List.mem_singleton] at h
    subst h
    rfl
  · intro h
    exact absurd h (List.not_mem_nil _)

/-- Helper: membership in `gapConflicts` characterized by the adjacent pair
it stems from. -/
theorem mem_gapConflicts_iff (g : List Spec.AppointmentRecord) (buffer : Nat)
    (r : Spec.ConflictRecord) :
    r ∈ Spec.gapConflicts g buffer ↔
      ∃ p ∈ g.zip g.tail, Spec.overlaps p.1.window p.2.window = false ∧
        0 < Spec.gap p.1.window p.2.window ∧
        Spec.gap p.1.window p.2.window < (buffer : Int) ∧
        r = Spec.mkConflict .gapTooSmall [p.1.id, p.2.id] .medium := by
  unfold Spec.gapConflicts
  rw [List.mem_filterMap]
  constructor
  · rintro ⟨p, hp, hf⟩
    revert hf
    split
    · intro hf
      cases hf
    · split
      · rename_i hov hcond
        intro hf
        injection hf with hf
        exact ⟨p, hp, by simpa using hov, hcond.1, hcond.2, hf.symm⟩
      · intro hf
        cases hf
  · rintro ⟨p, hp, hov, h1, h2, hr⟩
    refine ⟨p, hp, ?_⟩
    rw [if_neg (by simp [hov]), if_pos ⟨h1, h2⟩, hr]

/-- C7: gap threshold — for any batch, any two chronologically adjacent
appointments of one processed doctor-day group are flagged with a
medium-severity gap-too-small conflict exactly when their gap is positive
and strictly below the buffer; a gap equal to the buffer is not
flagged. -/
theorem detectConflicts_gap_threshold (batch : List Spec.AppointmentRecord)
    (c : Spec.SchedulingConstraints) (a b : Spec.AppointmentRecord) (i : Nat)
    (hnd : ((Spec.validScheduled batch).map (fun x => x.id)).Nodup)
    (ha : ((Spec.groupFor (Spec.validScheduled batch) (a.date, a.doctorId)).insertionSort
      Spec.startIdOrder).get? i = some a)
    (hb : ((Spec.groupFor (Spec.validScheduled batch) (a.date, a.doctorId)).insertionSort
      Spec.startIdOrder).get? (i + 1) = some b) :
    Spec.mkConflict .gapTooSmall [a.id, b.id] .medium ∈
        (Spec.detectConflicts batch c).conflicts ↔
      0 < Spec.gap a.window b.window ∧
        Spec.gap a.window b.window < (c.bufferMinutes : Int) := by
  have hag : a ∈ Spec.groupFor (Spec.validScheduled batch) (a.date, a.doctorId) :=
    (List.perm_insertionSort _ _).subset (List.get?_mem ha)
  have hbg : b ∈ Spec.groupFor (Spec.validScheduled batch) (a.date, a.doctorId) :=
    (List.perm_insertionSort _ _).subset (List.get?_mem hb)
  have haval : a ∈ Spec.validScheduled batch := (List.mem_filter.mp hag).1
  have hbval : b ∈ Spec.validScheduled batch := (List.mem_filter.mp hbg).1
  have hkey : ((a.date, a.doctorId) : Nat × Nat) ∈
      Spec.groupKeys (Spec.validScheduled batch) := by
    unfold Spec.groupKeys
    refine (List.perm_insertionSort _ _).mem_iff.mpr ?_
    rw [List.mem_dedup]
    exact List.mem_map.mpr ⟨a, haval, rfl⟩
  have hconf : (Spec.detectConflicts batch c).conflicts =
      (Spec.groupKeys (Spec.validScheduled batch)).flatMap
        (fun k => Spec.conflictsOfGroup
          (Spec.groupFor (Spec.validScheduled batch) k) c) := rfl
  rw [hconf]
  constructor
  · intro hmem
    rcases List.mem_flatMap.mp hmem with ⟨k, _, hrk⟩
    simp only [Spec.conflictsOfGroup] at hrk
    have hrk' := (List.perm_insertionSort _ _).subset hrk
    rcases List.mem_append.mp hrk' with h3 | hoverbook
    · rcases List.mem_append.mp h3 with h2 | hgap
      · rcases List.mem_append.mp h2 with hov | hdb
        · exact Spec.ConflictKind.noConfusion (kind_of_mem_overlapConflicts _ _ hov)
        · exact Spec.ConflictKind.noConfusion (kind_of_mem_doubleBookingConflicts _ _ hdb)
      · rcases (mem_gapConflicts_iff _ _ _).mp hgap with ⟨p, hp, _, h1, h2, heq⟩
        have hids : a.id = p.1.id ∧ b.id = p.2.id := by
          have hinv := congrArg Spec.ConflictRecord.involvedAppointmentIds heq
          simp only [Spec.mkConflict, List.cons.injEq, and_true] at hinv
          exact ⟨hinv.1, hinv.2⟩
        have hz := List.of_mem_zip hp
        have hp1 : p.1 ∈ Spec.validScheduled batch :=
          (List.mem_filter.mp ((List.perm_insertionSort _ _).subset hz.1)).1
        have hp2 : p.2 ∈ Spec.validScheduled batch :=
          (List.mem_filter.mp ((List.perm_insertionSort _ _).subset
            ((List.tail_sublist _).subset hz.2))).1
        have he1 : a = p.1 := List.inj_on_of_nodup_map hnd haval hp1 hids.1
        have he2 : b = p.2 := List.inj_on_of_nodup_map hnd hbval hp2 hids.2
        rw [← he1, ← he2] at h1 h2
        exact ⟨h1, h2⟩
    · exact Spec.ConflictKind.noConfusion (kind_of_mem_overbookConflicts _ _ _ hoverbook)
  · rintro ⟨h1, h2⟩
    refine List.mem_flatMap.mpr ⟨(a.date, a.doctorId), hkey, ?_⟩
    simp only [Spec.conflictsOfGroup]
    refine (List.perm_insertionSort _ _).mem_iff.mpr ?_
    refine List.mem_append.mpr (Or.inl (List.mem_append.mpr (Or.inr ?_)))
    refine (mem_gapConflicts_iff _ _ _).mpr ⟨(a, b), ?_, ?_, h1, h2, rfl⟩
    · exact mem_zip_tail_of_get? _ i a b ha hb
    · have hlt : ¬ b.window.start < a.window.stop := by
        unfold Spec.gap at h1
        omega
      simp [Spec.overlaps, hlt]

/-- C7 witness: with a ten-minute buffer, the adjacent nine-to-nine-thirty
and nine-thirty-five-to-ten appointments are flagged gap-too-small. -/
theorem detectConflicts_gap_threshold_witness :
    ((Spec.validScheduled [Spec.morningAppointmentA, Spec.morningAppointmentB]).map
        (fun x => x.id)).Nodup ∧
    ((Spec.groupFor
        (Spec.validScheduled [Spec.morningAppointmentA, Spec.morningAppointmentB])
        (Spec.morningAppointmentA.date, Spec.morningAppointmentA.doctorId)).insertionSort
      Spec.startIdOrder).get? 0 = some Spec.morningAppointmentA ∧
    ((Spec.groupFor
        (Spec.validScheduled [Spec.morningAppointmentA, Spec.morningAppointmentB])
        (Spec.morningAppointmentA.date, Spec.morningAppointmentA.doctorId)).insertionSort
      Spec.startIdOrder).get? (0 + 1) = some Spec.morningAppointmentB ∧
    (Spec.mkConflict .gapTooSmall
        [Spec.morningAppointmentA.id, Spec.morningAppointmentB.id] .medium ∈
        (Spec.detectConflicts [Spec.morningAppointmentA, Spec.morningAppointmentB]
          { Spec.sampleConstraints with bufferMinutes := 10 }).conflicts ↔
      0 < Spec.gap Spec.morningAppointmentA.window Spec.morningAppointmentB.window ∧
        Spec.gap Spec.morningAppointmentA.window Spec.morningAppointmentB.window <
          (({ Spec.sampleConstraints with
              bufferMinutes := 10 } : Spec.SchedulingConstraints).bufferMinutes : Int)) :=
  ⟨by decide, by decide, by decide,
    detectConflicts_gap_threshold [Spec.morningAppointmentA, Spec.morningAppointmentB]
      { Spec.sampleConstraints with bufferMinutes := 10 }
      Spec.morningAppointmentA Spec.morningAppointmentB 0
      (by decide) (by decide) (by decide)⟩

set_option maxHeartbeats 4000000 in
set_option maxRecDepth 8000 in
/-- Helper: parsing the formatted `HH:mm` string recovers the minute count,
checked over the hour and minute components the handler can produce from
well-formed inputs. -/
theorem parseTimeMin_minutesToHHMM_parts : ∀ a : Nat, a < 48 → ∀ b : Nat, b < 60 →
    App.parseTimeMin (App.minutesToHHMM (a * 60 + b)) = a * 60 + b := by decide

/-- Helper: the format and reparse round trip on nonnegative minute counts
below two days. -/
theorem parseTimeMin_minutesToHHMM (n : Nat) (h : n < 2880) :
    App.parseTimeMin (App.minutesToHHMM n) = n := by
  have h1 : n / 60 < 48 := by omega
  have h2 : n % 60 < 60 := Nat.mod_lt _ (by omega)
  have h3 := parseTimeMin_minutesToHHMM_parts (n / 60) h1 (n % 60) h2
  have hInt : ((n / 60 : Nat) : Int) * 60 + ((n % 60 : Nat) : Int) = (n : Int) := by
    push_cast
    omega
  rw [hInt] at h3
  exact h3

/-- Helper: on a list with pairwise-distinct ids, the handler's lookup
finds exactly the member carrying the dragged id. -/
theorem find?_id_eq_some (apts : List App.Appointment) (a : App.Appointment)
    (targetId : String) (hnd : (apts.map (fun x => x.id)).Nodup)
    (hmem : a ∈ apts) (hid : a.id = targetId) :
    apts.find? (fun x => decide (x.id = targetId)) = some a := by
  induction apts with
  | nil => cases hmem
  | cons x xs ih =>
    rcases List.mem_cons.mp hmem with rfl | hmem'
    · rw [List.find?_cons_of_pos]
      simp [hid]
    · simp only [List.map_cons, List.nodup_cons] at hnd
      have hxid : x.id ≠ targetId := by
        intro hx
        refine hnd.1 ?_
        have h1 : a.id ∈ xs.map (fun y => y.id) := List.mem_map_of_mem _ hmem'
        rw [hid] at h1
        rw [hx]
        exact h1
      rw [List.find?_cons_of_neg _ (by simp [hxid])]
      exact ih hnd.2 hmem'

/-- Helper: the handler's list rewrite once the lookup has succeeded. -/
theorem handleAppointmentDrop_eq_of_find (apts : List App.Appointment)
    (appointmentId newDate newStartTime : String) (a : App.Appointment)
    (hfind : apts.find? (fun x => decide (x.id = appointmentId)) = some a) :
    App.handleAppointmentDrop apts appointmentId newDate newStartTime =
      apts.map (fun apt =>
        if apt.id = appointmentId then
          { apt with
              date := newDate,
              startTime := newStartTime,
              endTime := App.minutesToHHMM (App.parseTimeMin newStartTime +
                (App.parseTimeMin a.endTime - App.parseTimeMin a.startTime)) }
        else apt) := by
  unfold App.handleAppointmentDrop
  rw [hfind]

/-- C8 counterexample: dropping an appointment whose stored end precedes
its start yields an end-time string whose parsed distance from the new
start differs from the original parsed duration, so the claim fails as
stated on an unrestricted appointment list. -/
theorem handleAppointmentDrop_duration_cex :
    App.handleAppointmentDrop
        [{ id := "a1", patientId := "p1", patientName := "John Anderson",
           doctorId := "d1", date := "2025-10-02", startTime := "02:00",
           endTime := "01:00", priority := .normal, status := .scheduled,
           type := "Consultation", notes := none, location := none }]
        "a1" "2025-10-03" "00:30" =
      [{ id := "a1", patientId := "p1", patientName := "John Anderson",
         doctorId := "d1", date := "2025-10-03", startTime := "00:30",
         endTime := "-1:-30", priority := .normal, status := .scheduled,
         type := "Consultation", notes := none, location := none }] ∧
    App.parseTimeMin "-1:-30" - App.parseTimeMin "00:30" ≠
      App.parseTimeMin "01:00" - App.parseTimeMin "02:00" := by
  constructor
  · decide
  · decide

/-- C8 amended: on a list with pairwise-distinct ids whose targeted
appointment has well-formed `HH:mm` times with start not after end, the
drop rewrites exactly the targeted appointment to the dropped date and
start, its new parsed duration equals the original, and every other
appointment is unchanged. -/
theorem handleAppointmentDrop_frame_duration (apts : List App.Appointment)
    (appointmentId newDate newStartTime : String) (a : App.Appointment)
    (s e ns : Nat)
    (hnd : (apts.map (fun x => x.id)).Nodup)
    (hmem : a ∈ apts) (hid : a.id = appointmentId)
    (hs : a.startTime = App.minutesToHHMM s)
    (he : a.endTime = App.minutesToHHMM e)
    (hse : s ≤ e) (hebound : e < 1440)
    (hns : newStartTime = App.minutesToHHMM ns) (hnsbound : ns < 1440) :
    App.handleAppointmentDrop apts appointmentId newDate newStartTime =
      apts.map (fun apt =>
        if apt.id = appointmentId then
          { apt with
              date := newDate,
              startTime := newStartTime,
              endTime := App.minutesToHHMM ((ns + (e - s) : Nat) : Int) }
        else apt) ∧
    App.parseTimeMin (App.minutesToHHMM ((ns + (e - s) : Nat) : Int)) -
        App.parseTimeMin newStartTime =
      App.parseTimeMin a.endTime - App.parseTimeMin a.startTime := by
  have hfind : apts.find? (fun x => decide (x.id = appointmentId)) = some a :=
    find?_id_eq_some apts a appointmentId hnd hmem hid
  have hps : App.parseTimeMin a.startTime = (s : Int) := by
    rw [hs]
    exact parseTimeMin_minutesToHHMM s (by omega)
  have hpe : App.parseTimeMin a.endTime = (e : Int) := by
    rw [he]
    exact parseTimeMin_minutesToHHMM e (by omega)
  have hpns : App.parseTimeMin newStartTime = (ns : Int) := by
    rw [hns]
    exact parseTimeMin_minutesToHHMM ns (by omega)
  have harg : (ns : Int) + ((e : Int) - (s : Int)) = ((ns + (e - s) : Nat) : Int) := by
    push_cast [Nat.cast_sub hse]
    ring
  constructor
  · rw [handleAppointmentDrop_eq_of_find apts appointmentId newDate newStartTime a hfind]
    simp only [hps, hpe, hpns, harg]
  · have hnew : App.parseTimeMin (App.minutesToHHMM ((ns + (e - s) : Nat) : Int)) =
        ((ns + (e - s) : Nat) : Int) :=
      parseTimeMin_minutesToHHMM (ns + (e - s)) (by omega)
    rw [hnew, hpns, hpe, hps]
    push_cast [Nat.cast_sub hse]
    ring

/-- C8 amended witness: dropping the nine-o'clock sample appointment onto
ten-thirty keeps its one-hour duration and rewrites only it. -/
theorem handleAppointmentDrop_frame_duration_witness :
    ((([App.sampleAppointment] : List App.Appointment).map (fun x => x.id)).Nodup ∧
      App.sampleAppointment ∈ [App.sampleAppointment] ∧
      App.sampleAppointment.startTime = App.minutesToHHMM 540 ∧
      App.sampleAppointment.endTime = App.minutesToHHMM 600 ∧
      ("10:30" : String) = App.minutesToHHMM 630) ∧
    (App.handleAppointmentDrop [App.sampleAppointment] "a1" "2025-10-03" "10:30" =
      [App.sampleAppointment].map (fun apt =>
        if apt.id = "a1" then
          { apt with
              date := "2025-10-03",
              startTime := "10:30",
              endTime := App.minutesToHHMM ((630 + (600 - 540) : Nat) : Int) }
        else apt) ∧
    App.parseTimeMin (App.minutesToHHMM ((630 + (600 - 540) : Nat) : Int)) -
        App.parseTimeMin "10:30" =
      App.parseTimeMin App.sampleAppointment.endTime -
        App.parseTimeMin App.sampleAppointment.startTime) :=
  ⟨⟨by decide, by decide, by decide, by decide, by decide⟩,
    handleAppointmentDrop_frame_duration [App.sampleAppointment] "a1" "2025-10-03"
      "10:30" App.sampleAppointment 540 600 630 (by decide) (by decide) (by decide)
      (by decide) (by decide) (by decide) (by decide) (by decide) (by decide)⟩
